import Mathlib

/-
Verification of the doctr training/dataset layer.

Part 1 models the dataset sample/target contract (the dataset loader
classes themselves are exercised only through src/tests; their
implementation is modelled from the spec, as marked on each definition).

Part 2 embeds the control flow of references/detection/train_pytorch.py:
the checkpoint bookkeeping of main (lines 502-532), the epoch loop with
early stopping (lines 503-554), and the per-batch update sequence of
fit_one_epoch (lines 144-166) and record_lr (lines 94-129) as explicit
event traces.  Validation losses are modelled as rationals; the initial
np.inf minimum is modelled as the extra value none of Option.
-/

namespace Doctr

/-! ### Part 1: dataset sample/target contract (modelled from the spec) -/

/-- Modelled from the spec: the dataset loader classes are absent from src
(only their tests are present).  The spec says annotations are bounding
boxes of 4 or 5 floats (axis-aligned or rotated); a raw annotation box
carries the axis-aligned extent and an angle, from which either encoding
is produced. -/
structure RawBox where
  xmin : ℚ
  ymin : ℚ
  xmax : ℚ
  ymax : ℚ
  angle : ℚ
deriving DecidableEq, Repr

/-- Modelled from the spec: a box is encoded as 4 floats (xmin, ymin,
xmax, ymax) in the straight case and as 5 floats (a 5-value angle-encoded
rotated box) when rotated boxes are requested. -/
def encodeBox (rotated : Bool) (b : RawBox) : List ℚ :=
  if rotated then
    [(b.xmin + b.xmax) / 2, (b.ymin + b.ymax) / 2, b.xmax - b.xmin, b.ymax - b.ymin, b.angle]
  else
    [b.xmin, b.ymin, b.xmax, b.ymax]

/-- Modelled from the spec: the target of a sample holds the encoded boxes
and the string labels. -/
structure Target where
  boxes : List (List ℚ)
  labels : List String
deriving DecidableEq, Repr

/-- Modelled from the spec: the target is built from the parsed annotation
entries, each entry pairing one box with one label. -/
def mkTarget (rotated : Bool) (anns : List (RawBox × String)) : Target :=
  { boxes := anns.map (fun a => encodeBox rotated a.1)
    labels := anns.map (fun a => a.2) }

/-- The dataset loader classes named by the spec and exercised by the
tests under src/tests. -/
inductive DatasetKind where
  | detection | ocr | ic13 | svhn | sroie | funsd | cord
  | synthText | docArtefacts | iiit5k | svt | ic03 | recognition
deriving DecidableEq, Repr

/-- Modelled from the spec: a dataset is a list of (image name, parsed
annotation entries) pairs together with its configuration. -/
structure Dataset where
  kind : DatasetKind
  rotatedBbox : Bool
  data : List (String × List (RawBox × String))
deriving DecidableEq, Repr

/-- Modelled from the spec: the indexing operation of a dataset returns
the (image, target) sample at the given index, building the target from
the stored annotation entries. -/
def getItem (ds : Dataset) (i : ℕ) (h : i < ds.data.length) : String × Target :=
  ((ds.data.get ⟨i, h⟩).1, mkTarget ds.rotatedBbox (ds.data.get ⟨i, h⟩).2)

/-- The error a dataset constructor signals when a referenced image file
is missing from the image folder. -/
inductive DatasetError where
  | fileNotFound (name : String)
deriving DecidableEq, Repr

/-- Modelled from the spec: dataset classes are thin file readers; per the
tests under src/tests, constructing a dataset checks that every image file
referenced by the label file exists in the image folder and raises
FileNotFoundError on the first missing one. -/
def checkImages (folder : List String) :
    List (String × List (RawBox × String)) →
      Except DatasetError (List (String × List (RawBox × String)))
  | [] => Except.ok []
  | e :: rest =>
    if folder.contains e.1 then
      match checkImages folder rest with
      | Except.ok l => Except.ok (e :: l)
      | Except.error err => Except.error err
    else
      Except.error (DatasetError.fileNotFound e.1)

/-- Modelled from the spec: dataset construction parses the label file
into entries and fails with FileNotFoundError unless every referenced
image exists in the folder. -/
def buildDataset (kind : DatasetKind) (rotated : Bool) (folder : List String)
    (entries : List (String × List (RawBox × String))) : Except DatasetError Dataset :=
  match checkImages folder entries with
  | Except.ok l => Except.ok ⟨kind, rotated, l⟩
  | Except.error err => Except.error err

/-- Whether an Except value is a success. -/
def isOkE {ε α : Type} : Except ε α → Bool
  | Except.ok _ => true
  | Except.error _ => false

/-! ### Part 2a: checkpoint bookkeeping of main (train_pytorch.py 502-532) -/

/-- The condition of train_pytorch.py line 525, val_loss < min_loss, where
min_loss starts at np.inf (modelled as none). -/
def belowMin (v : ℚ) : Option ℚ → Bool
  | none => true
  | some q => decide (v < q)

/-- The update of min_loss at line 529: it becomes val_loss exactly when
line 525 fired. -/
def updateMin (m : Option ℚ) (v : ℚ) : Option ℚ :=
  if belowMin v m then some v else m

/-- Which checkpoint files one epoch of main writes: exp_name.pt when the
validation loss decreased (line 528), exp_name_epochN.pt when the
save-interval-epoch option is set (line 532). -/
structure EpochSaves where
  bestSaved : Bool
  intervalSaved : Bool
deriving DecidableEq, Repr

/-- One epoch of the checkpoint bookkeeping, lines 525-532: compare
val_loss against the running minimum, save accordingly, update the
minimum. -/
def epochCheckpoint (saveIntervalEpoch : Bool) (m : Option ℚ) (v : ℚ) :
    EpochSaves × Option ℚ :=
  (⟨belowMin v m, saveIntervalEpoch⟩, updateMin m v)

/-- The checkpoint bookkeeping run over the successive validation losses
of the executed epochs, threading min_loss. -/
def checkpointLoop (saveIntervalEpoch : Bool) : Option ℚ → List ℚ → List EpochSaves
  | _, [] => []
  | m, v :: rest =>
    (epochCheckpoint saveIntervalEpoch m v).1 ::
      checkpointLoop saveIntervalEpoch (epochCheckpoint saveIntervalEpoch m v).2 rest

/-- Whether any checkpoint was written at an epoch. -/
def anySaved (s : EpochSaves) : Bool := s.bestSaved || s.intervalSaved

/-- Per-epoch flags of the run: whether any checkpoint was saved. -/
def savedFlags (saveIntervalEpoch : Bool) (losses : List ℚ) : List Bool :=
  (checkpointLoop saveIntervalEpoch none losses).map anySaved

/-- The value of min_loss after processing a list of validation losses,
starting from np.inf (none). -/
def minAfter (losses : List ℚ) : Option ℚ :=
  losses.foldl updateMin none

/-! ### Part 2b: the epoch loop of main with early stopping (503-554) -/

/-- The high-level phases of one epoch of the training loop at lines
507-510: fit_one_epoch, then evaluate on the validation set. -/
inductive EpochEvent where
  | trainPass
  | valPass
deriving DecidableEq, Repr

/-- The state trajectory of the early stopper across epochs: the stopper
is an opaque state machine consuming each validation loss (the call
early_stopper.early_stop(val_loss) at line 552). -/
def stopTrajectory {σ : Type} (stop : σ → ℚ → σ × Bool) (losses : ℕ → ℚ) (s0 : σ) :
    ℕ → σ
  | 0 => s0
  | n + 1 => (stop (stopTrajectory stop losses s0 n) (losses n)).1

/-- Whether the early stopper triggers on the validation loss of epoch n. -/
def triggersAt {σ : Type} (stop : σ → ℚ → σ × Bool) (losses : ℕ → ℚ) (s0 : σ)
    (n : ℕ) : Bool :=
  (stop (stopTrajectory stop losses s0 n) (losses n)).2

/-- The epoch loop, lines 507-554: iterate over range(args.epochs); each
epoch runs a training pass then a validation pass; when args.early_stop is
set and the stopper triggers on the validation loss, break.  Returns the
number of epochs actually executed. -/
def runEpochsAux {σ : Type} (stop : σ → ℚ → σ × Bool) (enabled : Bool)
    (losses : ℕ → ℚ) : ℕ → ℕ → σ → ℕ
  | 0, _, _ => 0
  | rem + 1, epoch, s =>
    if enabled && (stop s (losses epoch)).2 then 1
    else 1 + runEpochsAux stop enabled losses rem (epoch + 1) (stop s (losses epoch)).1

/-- Number of epochs executed by the training loop of main. -/
def epochsRun {σ : Type} (stop : σ → ℚ → σ × Bool) (enabled : Bool)
    (losses : ℕ → ℚ) (numEpochs : ℕ) (s0 : σ) : ℕ :=
  runEpochsAux stop enabled losses numEpochs 0 s0

/-- The trace of epoch phases the loop emits: each executed epoch
contributes one training pass followed by one validation pass. -/
def runEpochsTraceAux {σ : Type} (stop : σ → ℚ → σ × Bool) (enabled : Bool)
    (losses : ℕ → ℚ) : ℕ → ℕ → σ → List EpochEvent
  | 0, _, _ => []
  | rem + 1, epoch, s =>
    EpochEvent.trainPass :: EpochEvent.valPass ::
      (if enabled && (stop s (losses epoch)).2 then []
       else runEpochsTraceAux stop enabled losses rem (epoch + 1) (stop s (losses epoch)).1)

/-- The phase trace of the whole training loop. -/
def epochTrace {σ : Type} (stop : σ → ℚ → σ × Bool) (enabled : Bool)
    (losses : ℕ → ℚ) (numEpochs : ℕ) (s0 : σ) : List EpochEvent :=
  runEpochsTraceAux stop enabled losses numEpochs 0 s0

/-! ### Part 2c: per-batch update sequence (fit_one_epoch and record_lr) -/

/-- The operations a training iteration performs on the model, optimizer,
gradient scaler and scheduler. -/
inductive TrainOp where
  | zeroGrad
  | forwardLoss (autocast : Bool)
  | scaleLoss
  | backward
  | unscaleGrads
  | clipGradNorm (maxNorm : ℚ)
  | scalerStep
  | scalerUpdate
  | optimizerStep
  | schedulerStep
deriving DecidableEq, Repr

/-- The forward/backward/update block shared verbatim by fit_one_epoch
(lines 150-164) and record_lr (lines 102-116): under AMP the loss is
computed under autocast, scaled and backpropagated, the gradients are
unscaled then norm-clipped to 5, then scaler.step and scaler.update run;
without AMP the loss is computed and backpropagated, the gradients are
norm-clipped to 5, then optimizer.step runs. -/
def updateOps (amp : Bool) : List TrainOp :=
  if amp then
    [TrainOp.forwardLoss true, TrainOp.scaleLoss, TrainOp.backward,
     TrainOp.unscaleGrads, TrainOp.clipGradNorm 5,
     TrainOp.scalerStep, TrainOp.scalerUpdate]
  else
    [TrainOp.forwardLoss false, TrainOp.backward,
     TrainOp.clipGradNorm 5, TrainOp.optimizerStep]

/-- One batch iteration of fit_one_epoch (lines 149-166):
optimizer.zero_grad, the update block, then scheduler.step. -/
def fitIterOps (amp : Bool) : List TrainOp :=
  TrainOp.zeroGrad :: updateOps amp ++ [TrainOp.schedulerStep]

/-- One batch iteration of record_lr (lines 101-118): optimizer.zero_grad,
the update block, then scheduler.step; the break conditions at lines
121-129 come after the full block, so every executed iteration emits it
whole. -/
def recordLrIterOps (amp : Bool) : List TrainOp :=
  TrainOp.zeroGrad :: updateOps amp ++ [TrainOp.schedulerStep]

/-- The operation trace of one call of fit_one_epoch over its batches. -/
def fitOneEpochOps (amp : Bool) (numBatches : ℕ) : List TrainOp :=
  (List.replicate numBatches (fitIterOps amp)).flatten

/-- The operation trace of record_lr over the iterations it executes
before stopping. -/
def recordLrOps (amp : Bool) (numIters : ℕ) : List TrainOp :=
  (List.replicate numIters (recordLrIterOps amp)).flatten

/-- The operation trace of the full training loop of main: args.epochs
calls of fit_one_epoch (validation performs no optimizer step). -/
def fullTrainingOps (amp : Bool) (epochs numBatches : ℕ) : List TrainOp :=
  (List.replicate epochs (fitOneEpochOps amp numBatches)).flatten

/-- Tracks whether the current gradients have been norm-clipped to 5 since
they were last produced or reset. -/
def clipState (c : Bool) : TrainOp → Bool
  | TrainOp.zeroGrad => false
  | TrainOp.backward => false
  | TrainOp.clipGradNorm m => c || decide (m = 5)
  | _ => c

/-- Whether an operation is admissible given the clip flag: a parameter
update (optimizer.step or scaler.step) is admissible only on gradients
already clipped to norm 5. -/
def opAllowed (c : Bool) : TrainOp → Bool
  | TrainOp.optimizerStep => c
  | TrainOp.scalerStep => c
  | _ => true

/-- Scans a trace and checks that every parameter update acts on gradients
that were norm-clipped to 5 after the backward pass that produced them. -/
def allUpdatesClipped : Bool → List TrainOp → Bool
  | _, [] => true
  | c, op :: rest => opAllowed c op && allUpdatesClipped (clipState c op) rest

/-- The scheduler choices of args.sched (train_pytorch.py lines 467-472). -/
inductive SchedKind where
  | cosine | onecycle | poly
deriving DecidableEq, Repr

/-- The total-step horizon each scheduler constructor receives at lines
468-472: args.epochs * len(train_loader) in all three branches. -/
def schedHorizon (s : SchedKind) (epochs numBatches : ℕ) : ℕ :=
  match s with
  | SchedKind.cosine => epochs * numBatches
  | SchedKind.onecycle => epochs * numBatches
  | SchedKind.poly => epochs * numBatches

/-! ### Theorems -/

/-- C1: for every dataset sample returned by the indexing operation of any
dataset loader, the number of annotation boxes equals the number of labels
in the target. -/
theorem dataset_box_label_count (ds : Dataset) (i : ℕ) (h : i < ds.data.length) :
    (getItem ds i h).2.boxes.length = (getItem ds i h).2.labels.length := by
  simp [getItem, mkTarget]

/-- Witness for C1 at a concrete one-sample OCR dataset. -/
theorem dataset_box_label_count_witness :
    (getItem ⟨DatasetKind.ocr, false, [("img1.png", [(⟨0, 0, 1, 1, 0⟩, "hello")])]⟩ 0
        (by decide)).2.boxes.length =
      (getItem ⟨DatasetKind.ocr, false, [("img1.png", [(⟨0, 0, 1, 1, 0⟩, "hello")])]⟩ 0
        (by decide)).2.labels.length :=
  dataset_box_label_count _ 0 (by decide)

/-- C2: every annotation box of a detection dataset sample is encoded as 4
floats when rotated boxes are not requested and as 5 floats when the
dataset is constructed with rotated boxes. -/
theorem detection_target_box_width (ds : Dataset) (i : ℕ) (h : i < ds.data.length)
    (_hk : ds.kind = DatasetKind.detection) (b : List ℚ)
    (hb : b ∈ (getItem ds i h).2.boxes) :
    b.length = if ds.rotatedBbox then 5 else 4 := by
  simp only [getItem, mkTarget, List.mem_map] at hb
  obtain ⟨a, ha, rfl⟩ := hb
  cases hr : ds.rotatedBbox <;> simp [encodeBox, hr]

/-- Witness for C2 at a concrete rotated detection dataset. -/
theorem detection_target_box_width_witness :
    (encodeBox true ⟨0, 0, 2, 2, 1⟩).length = 5 :=
  detection_target_box_width
    ⟨DatasetKind.detection, true, [("img1.png", [(⟨0, 0, 2, 2, 1⟩, "word")])]⟩
    0 (by decide) rfl _ (by simp [getItem, mkTarget])

/-- checkImages either accepts all entries or fails with the name of a
missing image. -/
theorem checkImages_ok_or_missing (folder : List String)
    (entries : List (String × List (RawBox × String))) :
    ((∀ p ∈ entries, p.1 ∈ folder) ∧
      checkImages folder entries = Except.ok entries) ∨
    (∃ name, (∃ bs, (name, bs) ∈ entries) ∧ name ∉ folder ∧
      checkImages folder entries = Except.error (DatasetError.fileNotFound name)) := by
  induction entries with
  | nil => left; exact ⟨by simp, rfl⟩
  | cons e rest ih =>
    by_cases hc : e.1 ∈ folder
    · rcases ih with ⟨hall, hok⟩ | ⟨name, ⟨bs, hmem⟩, hnc, herr⟩
      · left
        refine ⟨?_, ?_⟩
        · intro p hp
          rcases List.mem_cons.mp hp with rfl | hp2
          · exact hc
          · exact hall p hp2
        · simp [checkImages, hc, hok]
      · right
        exact ⟨name, ⟨bs, List.mem_cons_of_mem _ hmem⟩, hnc,
          by simp [checkImages, hc, herr]⟩
    · right
      exact ⟨e.1, ⟨e.2, by simp⟩, hc, by simp [checkImages, hc]⟩

/-- C8: constructing a dataset succeeds exactly when every image file the
label file references exists in the image folder, and otherwise fails with
FileNotFoundError naming a missing image. -/
theorem dataset_build_file_check (kind : DatasetKind) (rotated : Bool)
    (folder : List String) (entries : List (String × List (RawBox × String))) :
    ((∀ p ∈ entries, p.1 ∈ folder) ∧
      buildDataset kind rotated folder entries = Except.ok ⟨kind, rotated, entries⟩) ∨
    (∃ name, (∃ bs, (name, bs) ∈ entries) ∧ name ∉ folder ∧
      buildDataset kind rotated folder entries =
        Except.error (DatasetError.fileNotFound name)) := by
  rcases checkImages_ok_or_missing folder entries with ⟨hall, hok⟩ | ⟨name, hmem, hnc, herr⟩
  · left
    exact ⟨hall, by simp [buildDataset, hok]⟩
  · right
    exact ⟨name, hmem, hnc, by simp [buildDataset, herr]⟩

/-- The save flag produced at each executed epoch is determined by the
running minimum accumulated over the preceding epochs. -/
theorem checkpointLoop_getElem (si : Bool) (m : Option ℚ) (losses : List ℚ) (e : ℕ)
    (h : e < losses.length) :
    (checkpointLoop si m losses)[e]? =
      some ⟨belowMin losses[e] ((losses.take e).foldl updateMin m), si⟩ := by
  induction losses generalizing m e with
  | nil => simp at h
  | cons v rest ih =>
    cases e with
    | zero => simp [checkpointLoop, epochCheckpoint]
    | succ e =>
      have h2 : e < rest.length := by simpa using h
      simp only [checkpointLoop, epochCheckpoint, List.getElem?_cons_succ,
        List.take_succ_cons, List.foldl_cons, List.getElem_cons_succ]
      exact ih (updateMin m v) e h2

/-- Folding updateMin from a finite seed yields the least of the seed and
the traversed losses. -/
theorem foldl_updateMin_some (l : List ℚ) (q0 : ℚ) :
    ∃ q, l.foldl updateMin (some q0) = some q ∧ q ≤ q0 ∧ (q = q0 ∨ q ∈ l) ∧
      ∀ v ∈ l, q ≤ v := by
  induction l generalizing q0 with
  | nil => exact ⟨q0, rfl, le_refl _, Or.inl rfl, by simp⟩
  | cons v rest ih =>
    by_cases hv : v < q0
    · have hu : updateMin (some q0) v = some v := by simp [updateMin, belowMin, hv]
      obtain ⟨q, hq, hle, hmem, hall⟩ := ih v
      refine ⟨q, ?_, le_of_lt (lt_of_le_of_lt hle hv), ?_, ?_⟩
      · rw [List.foldl_cons, hu]; exact hq
      · rcases hmem with rfl | hm
        · exact Or.inr (List.mem_cons_self _ _)
        · exact Or.inr (List.mem_cons_of_mem _ hm)
      · intro u hu2
        rcases List.mem_cons.mp hu2 with rfl | hu3
        · exact hle
        · exact hall u hu3
    · have hq0v : q0 ≤ v := le_of_not_lt hv
      have hu : updateMin (some q0) v = some q0 := by simp [updateMin, belowMin, hv]
      obtain ⟨q, hq, hle, hmem, hall⟩ := ih q0
      refine ⟨q, ?_, hle, ?_, ?_⟩
      · rw [List.foldl_cons, hu]; exact hq
      · rcases hmem with rfl | hm
        · exact Or.inl rfl
        · exact Or.inr (List.mem_cons_of_mem _ hm)
      · intro u hu2
        rcases List.mem_cons.mp hu2 with rfl | hu3
        · exact le_trans hle hq0v
        · exact hall u hu3

/-- On a nonempty loss list the tracked minimum is the least loss
observed. -/
theorem minAfter_least (losses : List ℚ) (hne : losses ≠ []) :
    ∃ q, minAfter losses = some q ∧ q ∈ losses ∧ ∀ v ∈ losses, q ≤ v := by
  cases losses with
  | nil => exact absurd rfl hne
  | cons v rest =>
    have h1 : minAfter (v :: rest) = rest.foldl updateMin (some v) := by
      simp [minAfter, updateMin, belowMin]
    obtain ⟨q, hq, hle, hmem, hall⟩ := foldl_updateMin_some rest v
    refine ⟨q, h1.trans hq, ?_, ?_⟩
    · rcases hmem with rfl | hm
      · exact List.mem_cons_self _ _
      · exact List.mem_cons_of_mem _ hm
    · intro u hu
      rcases List.mem_cons.mp hu with rfl | hu2
      · exact hle
      · exact hall u hu2

/-- C3: a checkpoint is saved at the end of an executed epoch if and only
if its validation loss is strictly below the minimum of all previous
epochs (starting from infinity) or the save-interval-epoch option is set;
after each epoch the tracked minimum is the least validation loss observed
so far, hence non-increasing across epochs. -/
theorem checkpoint_save_iff_min (si : Bool) (losses : List ℚ) (e : ℕ)
    (h : e < losses.length) :
    (savedFlags si losses)[e]? =
        some (belowMin losses[e] (minAfter (losses.take e)) || si) ∧
    (∃ q, minAfter (losses.take (e + 1)) = some q ∧ q ∈ losses.take (e + 1) ∧
        ∀ v ∈ losses.take (e + 1), q ≤ v) ∧
    (∀ q, minAfter (losses.take e) = some q →
        ∃ q2, minAfter (losses.take (e + 1)) = some q2 ∧ q2 ≤ q) := by
  refine ⟨?_, ?_, ?_⟩
  · unfold savedFlags
    rw [List.getElem?_map, checkpointLoop_getElem si none losses e h]
    rfl
  · apply minAfter_least
    intro hnil
    have hlen : (losses.take (e + 1)).length = 0 := by rw [hnil]; rfl
    rw [List.length_take] at hlen
    omega
  · intro q hq
    have htake : losses.take (e + 1) = losses.take e ++ [losses[e]] := by
      rw [List.take_succ]
      congr
      simp [List.getElem?_eq_getElem h]
    rw [htake]
    unfold minAfter
    rw [List.foldl_append]
    have hpre : List.foldl updateMin none (losses.take e) = some q := hq
    rw [hpre]
    simp only [List.foldl_cons, List.foldl_nil]
    by_cases hv : losses[e] < q
    · exact ⟨losses[e], by simp [updateMin, belowMin, hv], le_of_lt hv⟩
    · exact ⟨q, by simp [updateMin, belowMin, hv], le_refl q⟩

/-- Witness for C3 at the loss sequence 3, 2, 4 with the interval option
off: epoch 1 improves on the minimum 3, so a checkpoint is saved. -/
theorem checkpoint_save_iff_min_witness :
    (savedFlags false [3, 2, 4])[1]? = some true := by
  have h1 := (checkpoint_save_iff_min false [3, 2, 4] 1 (by decide)).1
  rw [h1]
  decide

/-- The epoch loop never executes more epochs than its bound. -/
theorem runEpochsAux_le {σ : Type} (stop : σ → ℚ → σ × Bool) (enabled : Bool)
    (losses : ℕ → ℚ) :
    ∀ (rem epoch : ℕ) (s : σ), runEpochsAux stop enabled losses rem epoch s ≤ rem := by
  intro rem
  induction rem with
  | zero => intro epoch s; simp [runEpochsAux]
  | succ rem ih =>
    intro epoch s
    by_cases hc : (enabled && (stop s (losses epoch)).2) = true
    · simp [runEpochsAux, hc]
    · have := ih (epoch + 1) (stop s (losses epoch)).1
      simp [runEpochsAux, hc]
      omega

/-- With early stopping disabled the loop executes every epoch. -/
theorem runEpochsAux_disabled {σ : Type} (stop : σ → ℚ → σ × Bool)
    (losses : ℕ → ℚ) :
    ∀ (rem epoch : ℕ) (s : σ), runEpochsAux stop false losses rem epoch s = rem := by
  intro rem
  induction rem with
  | zero => intro epoch s; rfl
  | succ rem ih =>
    intro epoch s
    simp only [runEpochsAux, Bool.false_and, Bool.false_eq_true, if_false]
    rw [ih (epoch + 1) (stop s (losses epoch)).1]
    omega

/-- When the stopper first triggers inside the remaining window, the loop
executes exactly up to and including the triggering epoch. -/
theorem runEpochsAux_trigger {σ : Type} (stop : σ → ℚ → σ × Bool)
    (losses : ℕ → ℚ) (s0 : σ) :
    ∀ (rem epoch e : ℕ), epoch ≤ e → e < epoch + rem →
      triggersAt stop losses s0 e = true →
      (∀ i, epoch ≤ i → i < e → triggersAt stop losses s0 i = false) →
      runEpochsAux stop true losses rem epoch (stopTrajectory stop losses s0 epoch) =
        e + 1 - epoch := by
  intro rem
  induction rem with
  | zero => intro epoch e h1 h2 _ _; omega
  | succ rem ih =>
    intro epoch e h1 h2 ht hmin
    by_cases he : epoch = e
    · subst he
      have hcond : (stop (stopTrajectory stop losses s0 epoch) (losses epoch)).2 = true := ht
      simp only [runEpochsAux, hcond, Bool.and_true, if_pos]
      omega
    · have hlt : epoch < e := lt_of_le_of_ne h1 he
      have hf : (stop (stopTrajectory stop losses s0 epoch) (losses epoch)).2 = false :=
        hmin epoch (le_refl _) hlt
      simp only [runEpochsAux, hf, Bool.and_false, Bool.false_eq_true, if_false]
      have hstep : (stop (stopTrajectory stop losses s0 epoch) (losses epoch)).1 =
          stopTrajectory stop losses s0 (epoch + 1) := rfl
      rw [hstep, ih (epoch + 1) e hlt (by omega) ht
        (fun i hi1 hi2 => hmin i (by omega) hi2)]
      omega

/-- The phase trace is one training pass followed by one validation pass
per executed epoch. -/
theorem runEpochsTraceAux_flatten {σ : Type} (stop : σ → ℚ → σ × Bool)
    (enabled : Bool) (losses : ℕ → ℚ) :
    ∀ (rem epoch : ℕ) (s : σ),
      runEpochsTraceAux stop enabled losses rem epoch s =
        (List.replicate (runEpochsAux stop enabled losses rem epoch s)
          [EpochEvent.trainPass, EpochEvent.valPass]).flatten := by
  intro rem
  induction rem with
  | zero => intro epoch s; rfl
  | succ rem ih =>
    intro epoch s
    by_cases hc : (enabled && (stop s (losses epoch)).2) = true
    · simp [runEpochsTraceAux, runEpochsAux, hc]
    · simp [runEpochsTraceAux, runEpochsAux, hc, ih, Nat.one_add,
        List.replicate_succ, List.flatten_cons]

/-- C4: the training loop of main performs exactly args.epochs epochs,
each one training pass followed by a validation pass, unless early
stopping is enabled and the stopper triggers, in which case the loop halts
right after the triggering epoch; with early stopping disabled it never
terminates before args.epochs epochs. -/
theorem training_epoch_count {σ : Type} (stop : σ → ℚ → σ × Bool) (losses : ℕ → ℚ)
    (s0 : σ) (numEpochs : ℕ) :
    (∀ enabled : Bool,
        epochsRun stop enabled losses numEpochs s0 ≤ numEpochs ∧
        epochTrace stop enabled losses numEpochs s0 =
          (List.replicate (epochsRun stop enabled losses numEpochs s0)
            [EpochEvent.trainPass, EpochEvent.valPass]).flatten) ∧
    epochsRun stop false losses numEpochs s0 = numEpochs ∧
    (∀ e, e < numEpochs → triggersAt stop losses s0 e = true →
        (∀ i, i < e → triggersAt stop losses s0 i = false) →
        epochsRun stop true losses numEpochs s0 = e + 1) := by
  refine ⟨fun enabled =>
      ⟨runEpochsAux_le stop enabled losses numEpochs 0 s0,
        runEpochsTraceAux_flatten stop enabled losses numEpochs 0 s0⟩,
    runEpochsAux_disabled stop losses numEpochs 0 s0, ?_⟩
  intro e he ht hmin
  have h2 := runEpochsAux_trigger stop losses s0 numEpochs 0 e (Nat.zero_le e)
    (by omega) ht (fun i _ hi2 => hmin i hi2)
  simpa [epochsRun, stopTrajectory] using h2

/-- Witness for C4: a stopper that triggers on losses below 1 first fires
at epoch 1 of the sequence 2, 0, 0, so the loop runs 2 of its 3 epochs. -/
theorem training_epoch_count_witness :
    epochsRun (fun (s : Unit) (v : ℚ) => (s, decide (v < 1))) true
      (fun n => if n = 0 then (2 : ℚ) else 0) 3 () = 1 + 1 :=
  (training_epoch_count (fun (s : Unit) (v : ℚ) => (s, decide (v < 1)))
    (fun n => if n = 0 then (2 : ℚ) else 0) () 3).2.2 1
    (by decide) (by decide) (by decide)

/-- Scanning a concatenation splits into scanning the parts, threading the
clip flag. -/
theorem allUpdatesClipped_append (c : Bool) (l1 l2 : List TrainOp) :
    allUpdatesClipped c (l1 ++ l2) =
      (allUpdatesClipped c l1 && allUpdatesClipped (l1.foldl clipState c) l2) := by
  induction l1 generalizing c with
  | nil => simp [allUpdatesClipped]
  | cons op rest ih => simp [allUpdatesClipped, ih, Bool.and_assoc]

/-- One fit_one_epoch iteration passes the clip scan and leaves the clip
flag set. -/
theorem fitIterOps_clipped (amp c : Bool) :
    allUpdatesClipped c (fitIterOps amp) = true ∧
    (fitIterOps amp).foldl clipState c = true := by
  cases amp <;> cases c <;> exact ⟨by decide, by decide⟩

/-- One record_lr iteration passes the clip scan and leaves the clip flag
set. -/
theorem recordLrIterOps_clipped (amp c : Bool) :
    allUpdatesClipped c (recordLrIterOps amp) = true ∧
    (recordLrIterOps amp).foldl clipState c = true := by
  cases amp <;> cases c <;> exact ⟨by decide, by decide⟩

/-- A trace made of iterations that each pass the clip scan passes it as a
whole. -/
theorem clipped_flatten_replicate (body : List TrainOp)
    (hb : ∀ c, allUpdatesClipped c body = true ∧ body.foldl clipState c = true) :
    ∀ (n : ℕ) (c : Bool), allUpdatesClipped c (List.replicate n body).flatten = true := by
  intro n
  induction n with
  | zero => intro c; rfl
  | succ n ih =>
    intro c
    simp [List.replicate_succ, List.flatten_cons, allUpdatesClipped_append,
      (hb c).1, (hb c).2, ih]

/-- C5: in every training iteration of fit_one_epoch and of record_lr, AMP
or not, the gradients are norm-clipped to 5 after the backward pass (after
unscaling under AMP) and before the parameter update, and no parameter
update happens on unclipped gradients. -/
theorem gradient_clipping_guards_updates (amp : Bool) (numBatches numIters : ℕ) :
    allUpdatesClipped false (fitOneEpochOps amp numBatches) = true ∧
    allUpdatesClipped false (recordLrOps amp numIters) = true ∧
    ((fitIterOps true).count (TrainOp.clipGradNorm 5) = 1 ∧
      (fitIterOps false).count (TrainOp.clipGradNorm 5) = 1 ∧
      (recordLrIterOps true).count (TrainOp.clipGradNorm 5) = 1 ∧
      (recordLrIterOps false).count (TrainOp.clipGradNorm 5) = 1) ∧
    (List.indexOf TrainOp.backward (fitIterOps false) <
        List.indexOf (TrainOp.clipGradNorm 5) (fitIterOps false) ∧
      List.indexOf (TrainOp.clipGradNorm 5) (fitIterOps false) <
        List.indexOf TrainOp.optimizerStep (fitIterOps false) ∧
      List.indexOf TrainOp.backward (recordLrIterOps false) <
        List.indexOf (TrainOp.clipGradNorm 5) (recordLrIterOps false) ∧
      List.indexOf (TrainOp.clipGradNorm 5) (recordLrIterOps false) <
        List.indexOf TrainOp.optimizerStep (recordLrIterOps false)) ∧
    (List.indexOf TrainOp.backward (fitIterOps true) <
        List.indexOf TrainOp.unscaleGrads (fitIterOps true) ∧
      List.indexOf TrainOp.unscaleGrads (fitIterOps true) <
        List.indexOf (TrainOp.clipGradNorm 5) (fitIterOps true) ∧
      List.indexOf (TrainOp.clipGradNorm 5) (fitIterOps true) <
        List.indexOf TrainOp.scalerStep (fitIterOps true) ∧
      List.indexOf TrainOp.backward (recordLrIterOps true) <
        List.indexOf TrainOp.unscaleGrads (recordLrIterOps true) ∧
      List.indexOf TrainOp.unscaleGrads (recordLrIterOps true) <
        List.indexOf (TrainOp.clipGradNorm 5) (recordLrIterOps true) ∧
      List.indexOf (TrainOp.clipGradNorm 5) (recordLrIterOps true) <
        List.indexOf TrainOp.scalerStep (recordLrIterOps true)) :=
  ⟨clipped_flatten_replicate (fitIterOps amp) (fitIterOps_clipped amp) numBatches false,
    clipped_flatten_replicate (recordLrIterOps amp) (recordLrIterOps_clipped amp)
      numIters false,
    by decide, by decide, by decide⟩

/-- C6: under AMP the update sequence of a fit_one_epoch iteration is, in
this exact order: loss under autocast, scale and backward, unscale the
gradients, clip the gradient norm, scaler-mediated step, scaler update;
each phase occurs exactly once per iteration. -/
theorem amp_update_sequence_order :
    ((fitIterOps true).count (TrainOp.forwardLoss true) = 1 ∧
      (fitIterOps true).count TrainOp.scaleLoss = 1 ∧
      (fitIterOps true).count TrainOp.backward = 1 ∧
      (fitIterOps true).count TrainOp.unscaleGrads = 1 ∧
      (fitIterOps true).count (TrainOp.clipGradNorm 5) = 1 ∧
      (fitIterOps true).count TrainOp.scalerStep = 1 ∧
      (fitIterOps true).count TrainOp.scalerUpdate = 1) ∧
    (List.indexOf (TrainOp.forwardLoss true) (fitIterOps true) <
        List.indexOf TrainOp.scaleLoss (fitIterOps true) ∧
      List.indexOf TrainOp.scaleLoss (fitIterOps true) <
        List.indexOf TrainOp.backward (fitIterOps true) ∧
      List.indexOf TrainOp.backward (fitIterOps true) <
        List.indexOf TrainOp.unscaleGrads (fitIterOps true) ∧
      List.indexOf TrainOp.unscaleGrads (fitIterOps true) <
        List.indexOf (TrainOp.clipGradNorm 5) (fitIterOps true) ∧
      List.indexOf (TrainOp.clipGradNorm 5) (fitIterOps true) <
        List.indexOf TrainOp.scalerStep (fitIterOps true) ∧
      List.indexOf TrainOp.scalerStep (fitIterOps true) <
        List.indexOf TrainOp.scalerUpdate (fitIterOps true)) := by
  decide

/-- Counting an operation in a repeated trace multiplies its per-iteration
count. -/
theorem count_flatten_replicate (x : TrainOp) (l : List TrainOp) :
    ∀ n : ℕ, ((List.replicate n l).flatten).count x = n * l.count x := by
  intro n
  induction n with
  | zero => simp
  | succ n ih =>
    rw [List.replicate_succ, List.flatten_cons, List.count_append, ih, Nat.succ_mul]
    omega

/-- C7: every scheduler choice is built with horizon args.epochs times the
number of training batches, the scheduler is stepped exactly once per
training batch right after the parameter update, and over a full run the
number of scheduler steps equals the horizon. -/
theorem scheduler_steps_match_horizon (s : SchedKind) (amp : Bool)
    (epochs numBatches : ℕ) :
    (fullTrainingOps amp epochs numBatches).count TrainOp.schedulerStep =
      schedHorizon s epochs numBatches ∧
    (fitIterOps amp).count TrainOp.schedulerStep = 1 ∧
    List.indexOf TrainOp.optimizerStep (fitIterOps false) <
      List.indexOf TrainOp.schedulerStep (fitIterOps false) ∧
    List.indexOf TrainOp.scalerStep (fitIterOps true) <
      List.indexOf TrainOp.schedulerStep (fitIterOps true) := by
  have hbody : (fitIterOps amp).count TrainOp.schedulerStep = 1 := by
    cases amp <;> decide
  refine ⟨?_, hbody, by decide, by decide⟩
  unfold fullTrainingOps fitOneEpochOps
  rw [count_flatten_replicate, count_flatten_replicate, hbody, Nat.mul_one]
  cases s <;> rfl

end Doctr
